import Mathlib

/-!
Verification of the boggle-analytics transformation pipeline
(notebook "02. Exploring Analytics"): per-row column derivation
(`point_overlap`, `sarah_points_potential`) followed by a game-level
groupby aggregation over `game_date` with sum/min/max of each player's
scored points and a derived `winner` label.

Dates are encoded as natural numbers (e.g. 2024-01-01 as 20240101);
point values are integers, matching the numeric columns of the table.
-/

/-- One input row (a scoring round): `game_date`, Trevor's scored and
potential points, Sarah's scored points. -/
structure Round where
  game_date : Nat
  trevor_points_scored : Int
  trevor_points_potential : Int
  sarah_points_scored : Int
  deriving DecidableEq, Repr

/-- A round-level row after the column-derivation step: the original
columns plus the two derived columns `point_overlap` and
`sarah_points_potential`. -/
structure DerivedRound extends Round where
  point_overlap : Int
  sarah_points_potential : Int
  deriving DecidableEq, Repr

/-- The column-derivation step: for each row,
`point_overlap = trevor_points_potential - trevor_points_scored` and
`sarah_points_potential = sarah_points_scored + point_overlap`,
all other columns unchanged, row order unchanged. -/
def addDerivedColumns (rows : List Round) : List DerivedRound :=
  rows.map (fun row =>
    { toRound := row
      point_overlap := row.trevor_points_potential - row.trevor_points_scored
      sarah_points_potential :=
        row.sarah_points_scored +
          (row.trevor_points_potential - row.trevor_points_scored) })

/-- One game-level output row: the aggregated statistics for all rounds
sharing one `game_date`, plus the `winner` label. -/
structure GameRecord where
  game_date : Nat
  trevor_total_points : Int
  trevor_min_scoring_round : Int
  trevor_max_scoring_round : Int
  sarah_total_points : Int
  sarah_min_scoring_round : Int
  sarah_max_scoring_round : Int
  winner : String
  deriving DecidableEq, Repr

/-- Minimum of a list of integers (pandas `min` aggregation; the value on
the empty list is irrelevant since groups are nonempty). -/
def minList : List Int → Int
  | [] => 0
  | x :: xs => xs.foldl min x

/-- Maximum of a list of integers (pandas `max` aggregation). -/
def maxList : List Int → Int
  | [] => 0
  | x :: xs => xs.foldl max x

/-- The rows belonging to the group with key `d` under
`groupby("game_date")`: the input rows whose `game_date` equals `d`,
in their original order. -/
def groupRows (rows : List DerivedRound) (d : Nat) : List DerivedRound :=
  rows.filter (fun r => r.game_date == d)

/-- The distinct `game_date` values of the input, in ascending order:
the group keys produced by `groupby("game_date")` (pandas sorts group
keys ascending by default). -/
def gameDates (rows : List DerivedRound) : List Nat :=
  List.insertionSort (· ≤ ·) (rows.map (fun r => r.game_date)).dedup

/-- The aggregated row for group key `d` with member rows `group`:
sum/min/max of each player's scored points, and the `winner` label
`"Trevor"` when `trevor_total_points > sarah_total_points`, `"Sarah"`
otherwise. -/
def mkGameRecord (d : Nat) (group : List DerivedRound) : GameRecord :=
  { game_date := d
    trevor_total_points := (group.map (fun r => r.trevor_points_scored)).sum
    trevor_min_scoring_round := minList (group.map (fun r => r.trevor_points_scored))
    trevor_max_scoring_round := maxList (group.map (fun r => r.trevor_points_scored))
    sarah_total_points := (group.map (fun r => r.sarah_points_scored)).sum
    sarah_min_scoring_round := minList (group.map (fun r => r.sarah_points_scored))
    sarah_max_scoring_round := maxList (group.map (fun r => r.sarah_points_scored))
    winner :=
      if (group.map (fun r => r.trevor_points_scored)).sum >
          (group.map (fun r => r.sarah_points_scored)).sum
        then "Trevor" else "Sarah" }

/-- The game-level aggregation (`game_level_stats_df`): one output row
per distinct `game_date`, keys in ascending order. -/
def gameLevelStats (rows : List DerivedRound) : List GameRecord :=
  (gameDates rows).map (fun d => mkGameRecord d (groupRows rows d))

/-- The two example rounds of the spec's worked example, dated
2024-01-01. -/
def exampleRounds : List Round :=
  [ { game_date := 20240101, trevor_points_scored := 5,
      trevor_points_potential := 8, sarah_points_scored := 6 },
    { game_date := 20240101, trevor_points_scored := 3,
      trevor_points_potential := 3, sarah_points_scored := 10 } ]

/-- The example rounds after column derivation. -/
def exampleDerived : List DerivedRound := addDerivedColumns exampleRounds

/-! ### Helper lemmas about `minList` and `maxList` -/

theorem foldl_min_le_init (xs : List Int) (a : Int) : xs.foldl min a ≤ a := by
  induction xs generalizing a with
  | nil => exact le_refl a
  | cons x xs ih =>
      exact le_trans (ih (min a x)) (min_le_left a x)

theorem foldl_min_le_mem (xs : List Int) (a : Int) :
    ∀ y ∈ xs, xs.foldl min a ≤ y := by
  induction xs generalizing a with
  | nil => intro y hy; cases hy
  | cons x xs ih =>
      intro y hy
      rcases List.mem_cons.mp hy with rfl | hy
      · exact le_trans (foldl_min_le_init xs (min a y)) (min_le_right a y)
      · exact ih (min a x) y hy

theorem foldl_min_mem_or (xs : List Int) (a : Int) :
    xs.foldl min a = a ∨ xs.foldl min a ∈ xs := by
  induction xs generalizing a with
  | nil => exact Or.inl rfl
  | cons x xs ih =>
      rcases ih (min a x) with h | h
      · rcases min_choice a x with hc | hc
        · exact Or.inl (by rw [List.foldl_cons, h, hc])
        · refine Or.inr ?_
          rw [List.foldl_cons, h, hc]
          exact List.mem_cons_self x xs
      · exact Or.inr (List.mem_cons_of_mem x h)

theorem minList_le (l : List Int) : ∀ y ∈ l, minList l ≤ y := by
  cases l with
  | nil => intro y hy; cases hy
  | cons x xs =>
      intro y hy
      rcases List.mem_cons.mp hy with rfl | hy
      · exact foldl_min_le_init xs y
      · exact foldl_min_le_mem xs x y hy

theorem minList_mem (l : List Int) (h : l ≠ []) : minList l ∈ l := by
  cases l with
  | nil => exact absurd rfl h
  | cons x xs =>
      show xs.foldl min x ∈ x :: xs
      rcases foldl_min_mem_or xs x with h' | h'
      · rw [h']; exact List.mem_cons_self x xs
      · exact List.mem_cons_of_mem x h'

theorem init_le_foldl_max (xs : List Int) (a : Int) : a ≤ xs.foldl max a := by
  induction xs generalizing a with
  | nil => exact le_refl a
  | cons x xs ih =>
      exact le_trans (le_max_left a x) (ih (max a x))

theorem mem_le_foldl_max (xs : List Int) (a : Int) :
    ∀ y ∈ xs, y ≤ xs.foldl max a := by
  induction xs generalizing a with
  | nil => intro y hy; cases hy
  | cons x xs ih =>
      intro y hy
      rcases List.mem_cons.mp hy with rfl | hy
      · exact le_trans (le_max_right a y) (init_le_foldl_max xs (max a y))
      · exact ih (max a x) y hy

theorem foldl_max_mem_or (xs : List Int) (a : Int) :
    xs.foldl max a = a ∨ xs.foldl max a ∈ xs := by
  induction xs generalizing a with
  | nil => exact Or.inl rfl
  | cons x xs ih =>
      rcases ih (max a x) with h | h
      · rcases max_choice a x with hc | hc
        · exact Or.inl (by rw [List.foldl_cons, h, hc])
        · refine Or.inr ?_
          rw [List.foldl_cons, h, hc]
          exact List.mem_cons_self x xs
      · exact Or.inr (List.mem_cons_of_mem x h)

theorem le_maxList (l : List Int) : ∀ y ∈ l, y ≤ maxList l := by
  cases l with
  | nil => intro y hy; cases hy
  | cons x xs =>
      intro y hy
      rcases List.mem_cons.mp hy with rfl | hy
      · exact init_le_foldl_max xs y
      · exact mem_le_foldl_max xs x y hy

theorem maxList_mem (l : List Int) (h : l ≠ []) : maxList l ∈ l := by
  cases l with
  | nil => exact absurd rfl h
  | cons x xs =>
      show xs.foldl max x ∈ x :: xs
      rcases foldl_max_mem_or xs x with h' | h'
      · rw [h']; exact List.mem_cons_self x xs
      · exact List.mem_cons_of_mem x h'

/-! ### Helper lemmas about the groupby structure -/

theorem mem_gameDates (rows : List DerivedRound) (d : Nat) :
    d ∈ gameDates rows ↔ d ∈ rows.map (fun r => r.game_date) := by
  unfold gameDates
  rw [(List.perm_insertionSort _ _).mem_iff, List.mem_dedup]

theorem gameDates_nodup (rows : List DerivedRound) : (gameDates rows).Nodup :=
  (List.perm_insertionSort _ _).nodup_iff.mpr (List.nodup_dedup _)

theorem gameDates_sorted (rows : List DerivedRound) :
    (gameDates rows).Sorted (· ≤ ·) :=
  List.sorted_insertionSort _ _

theorem mkGameRecord_date (d : Nat) (group : List DerivedRound) :
    (mkGameRecord d group).game_date = d := rfl

theorem gameLevelStats_map_date (rows : List DerivedRound) :
    (gameLevelStats rows).map (fun g => g.game_date) = gameDates rows := by
  unfold gameLevelStats
  rw [List.map_map]
  have hc : ((fun g : GameRecord => g.game_date) ∘
      fun d => mkGameRecord d (groupRows rows d)) = fun d => d := rfl
  rw [hc]
  exact List.map_id' _

theorem mem_gameLevelStats (rows : List DerivedRound) (g : GameRecord) :
    g ∈ gameLevelStats rows ↔
      ∃ d ∈ gameDates rows, g = mkGameRecord d (groupRows rows d) := by
  unfold gameLevelStats
  simp only [List.mem_map]
  constructor
  · rintro ⟨d, hd, rfl⟩; exact ⟨d, hd, rfl⟩
  · rintro ⟨d, hd, rfl⟩; exact ⟨d, hd, rfl⟩

theorem mem_groupRows (rows : List DerivedRound) (d : Nat) (r : DerivedRound) :
    r ∈ groupRows rows d ↔ r ∈ rows ∧ r.game_date = d := by
  unfold groupRows
  rw [List.mem_filter]
  simp [beq_iff_eq]

theorem groupRows_ne_nil (rows : List DerivedRound) (d : Nat)
    (hd : d ∈ gameDates rows) : groupRows rows d ≠ [] := by
  rw [mem_gameDates] at hd
  rcases List.mem_map.mp hd with ⟨r, hr, hrd⟩
  intro hnil
  have : r ∈ groupRows rows d := (mem_groupRows rows d r).mpr ⟨hr, hrd⟩
  rw [hnil] at this
  cases this

theorem map_ne_nil {α β : Type} (f : α → β) (l : List α) (h : l ≠ []) :
    l.map f ≠ [] := by
  cases l with
  | nil => exact absurd rfl h
  | cons x xs => exact fun hx => absurd hx (List.cons_ne_nil _ _)

theorem mkGameRecord_trevor_total (d : Nat) (group : List DerivedRound) :
    (mkGameRecord d group).trevor_total_points =
      (group.map (fun r => r.trevor_points_scored)).sum := rfl

theorem mkGameRecord_trevor_min (d : Nat) (group : List DerivedRound) :
    (mkGameRecord d group).trevor_min_scoring_round =
      minList (group.map (fun r => r.trevor_points_scored)) := rfl

theorem mkGameRecord_trevor_max (d : Nat) (group : List DerivedRound) :
    (mkGameRecord d group).trevor_max_scoring_round =
      maxList (group.map (fun r => r.trevor_points_scored)) := rfl

theorem mkGameRecord_sarah_total (d : Nat) (group : List DerivedRound) :
    (mkGameRecord d group).sarah_total_points =
      (group.map (fun r => r.sarah_points_scored)).sum := rfl

theorem mkGameRecord_sarah_min (d : Nat) (group : List DerivedRound) :
    (mkGameRecord d group).sarah_min_scoring_round =
      minList (group.map (fun r => r.sarah_points_scored)) := rfl

theorem mkGameRecord_sarah_max (d : Nat) (group : List DerivedRound) :
    (mkGameRecord d group).sarah_max_scoring_round =
      maxList (group.map (fun r => r.sarah_points_scored)) := rfl

theorem mkGameRecord_winner (d : Nat) (group : List DerivedRound) :
    (mkGameRecord d group).winner =
      if (group.map (fun r => r.trevor_points_scored)).sum >
          (group.map (fun r => r.sarah_points_scored)).sum
        then "Trevor" else "Sarah" := rfl

/-- A single round whose potential is below its scored points, violating
the input constraint of the column-derivation step. -/
def violatingRound : Round :=
  { game_date := 20240101, trevor_points_scored := 5,
    trevor_points_potential := 3, sarah_points_scored := 4 }

/-- The aggregated game record of the worked example. -/
def exampleGame : GameRecord :=
  mkGameRecord 20240101 (groupRows exampleDerived 20240101)

/-- The first derived row of the worked example. -/
def exampleRow0 : DerivedRound :=
  { game_date := 20240101, trevor_points_scored := 5,
    trevor_points_potential := 8, sarah_points_scored := 6,
    point_overlap := 3, sarah_points_potential := 9 }

/-! ### Claim theorems -/

/-- C1: in the game-level output, the `winner` column equals `"Trevor"`
if and only if that game's `trevor_total_points` is strictly greater
than its `sarah_total_points`, and equals `"Sarah"` in every other case,
including an exact tie. -/
theorem winner_policy (rows : List DerivedRound) (g : GameRecord)
    (hg : g ∈ gameLevelStats rows) :
    (g.winner = "Trevor" ↔ g.sarah_total_points < g.trevor_total_points) ∧
    (g.trevor_total_points ≤ g.sarah_total_points → g.winner = "Sarah") := by
  rcases (mem_gameLevelStats rows g).mp hg with ⟨d, hd, rfl⟩
  rw [mkGameRecord_winner, mkGameRecord_trevor_total, mkGameRecord_sarah_total]
  split_ifs with h
  · exact ⟨⟨fun _ => h, fun _ => rfl⟩, fun hle => absurd h (not_lt.mpr hle)⟩
  · refine ⟨⟨fun hw => absurd hw (by decide), fun hlt => absurd hlt h⟩, fun _ => rfl⟩

/-- C1 witness: the winner policy at the worked example's game record. -/
theorem winner_policy_witness :
    (exampleGame.winner = "Trevor" ↔
      exampleGame.sarah_total_points < exampleGame.trevor_total_points) ∧
    (exampleGame.trevor_total_points ≤ exampleGame.sarah_total_points →
      exampleGame.winner = "Sarah") :=
  winner_policy exampleDerived exampleGame (by decide)

/-- C2: every row of the round-level table has
`point_overlap = trevor_points_potential - trevor_points_scored`. -/
theorem point_overlap_eq (rows : List Round) (r : DerivedRound)
    (hr : r ∈ addDerivedColumns rows) :
    r.point_overlap = r.trevor_points_potential - r.trevor_points_scored := by
  rcases List.mem_map.mp hr with ⟨row, _, rfl⟩
  rfl

/-- C2 witness: the overlap identity at the first example row. -/
theorem point_overlap_eq_witness :
    exampleRow0.point_overlap =
      exampleRow0.trevor_points_potential - exampleRow0.trevor_points_scored :=
  point_overlap_eq exampleRounds exampleRow0 (by decide)

/-- C3: every row of the round-level table has
`sarah_points_potential = sarah_points_scored + point_overlap`,
equivalently `sarah_points_potential - sarah_points_scored = point_overlap`. -/
theorem sarah_potential_eq (rows : List Round) (r : DerivedRound)
    (hr : r ∈ addDerivedColumns rows) :
    r.sarah_points_potential = r.sarah_points_scored + r.point_overlap ∧
    r.sarah_points_potential - r.sarah_points_scored = r.point_overlap := by
  rcases List.mem_map.mp hr with ⟨row, _, rfl⟩
  constructor
  · rfl
  · show row.sarah_points_scored +
      (row.trevor_points_potential - row.trevor_points_scored) -
        row.sarah_points_scored =
      row.trevor_points_potential - row.trevor_points_scored
    ring

/-- C3 witness: the Sarah-potential identity at the first example row. -/
theorem sarah_potential_eq_witness :
    exampleRow0.sarah_points_potential =
      exampleRow0.sarah_points_scored + exampleRow0.point_overlap ∧
    exampleRow0.sarah_points_potential - exampleRow0.sarah_points_scored =
      exampleRow0.point_overlap :=
  sarah_potential_eq exampleRounds exampleRow0 (by decide)

/-- C5: the column-derivation step preserves row count and row order and
leaves every input column unchanged; the output rows are the input rows
with exactly the two derived columns added. -/
theorem derivation_frame (rows : List Round) :
    (addDerivedColumns rows).length = rows.length ∧
    (addDerivedColumns rows).map (fun r => r.toRound) = rows := by
  refine ⟨by simp [addDerivedColumns], ?_⟩
  induction rows with
  | nil => rfl
  | cons x xs ih => exact congrArg (List.cons x) ih

/-- C6: the column-derivation step is total (it maps every input list to
an output of the same length, signalling no error); under the
precondition that every row has `trevor_points_scored ≤
trevor_points_potential` the derived `point_overlap` is nonnegative on
every row; and on a violating row it silently produces a negative
`point_overlap` instead of an error. -/
theorem derivation_total_overlap_nonneg (rows : List Round) :
    (addDerivedColumns rows).length = rows.length ∧
    ((∀ r ∈ rows, r.trevor_points_scored ≤ r.trevor_points_potential) →
      ∀ s ∈ addDerivedColumns rows, 0 ≤ s.point_overlap) ∧
    (addDerivedColumns [violatingRound]).map (fun s => s.point_overlap) =
      [-2] := by
  refine ⟨by simp [addDerivedColumns], ?_, rfl⟩
  intro h s hs
  rcases List.mem_map.mp hs with ⟨row, hrow, rfl⟩
  exact sub_nonneg.mpr (h row hrow)

/-- C6 witness: totality and nonnegative overlap at the worked example. -/
theorem derivation_total_overlap_nonneg_witness :
    (addDerivedColumns exampleRounds).length = exampleRounds.length ∧
    ∀ s ∈ addDerivedColumns exampleRounds, 0 ≤ s.point_overlap :=
  ⟨(derivation_total_overlap_nonneg exampleRounds).1,
    (derivation_total_overlap_nonneg exampleRounds).2.1 (by decide)⟩

/-- C10: on an empty input both the column-derivation step and the
game-level aggregation return empty tables without failing. -/
theorem empty_input_behavior :
    addDerivedColumns [] = [] ∧ gameLevelStats [] = [] :=
  ⟨rfl, rfl⟩

/-- C4: the game-level aggregation produces exactly one output row per
distinct `game_date` of the input (the output dates are duplicate-free
and are exactly the input dates), and on each output row the
total/min/max statistics are the sum, a least member, and a greatest
member of the corresponding player's scored points over the rows of
that date's group. -/
theorem game_level_aggregation (rows : List DerivedRound) :
    ((gameLevelStats rows).map (fun g => g.game_date)).Nodup ∧
    (∀ d : Nat, d ∈ (gameLevelStats rows).map (fun g => g.game_date) ↔
        d ∈ rows.map (fun r => r.game_date)) ∧
    ∀ g ∈ gameLevelStats rows,
      (g.trevor_total_points =
          ((groupRows rows g.game_date).map
            (fun r => r.trevor_points_scored)).sum ∧
        g.trevor_min_scoring_round ∈
          (groupRows rows g.game_date).map (fun r => r.trevor_points_scored) ∧
        (∀ y ∈ (groupRows rows g.game_date).map
            (fun r => r.trevor_points_scored),
          g.trevor_min_scoring_round ≤ y) ∧
        g.trevor_max_scoring_round ∈
          (groupRows rows g.game_date).map (fun r => r.trevor_points_scored) ∧
        (∀ y ∈ (groupRows rows g.game_date).map
            (fun r => r.trevor_points_scored),
          y ≤ g.trevor_max_scoring_round)) ∧
      (g.sarah_total_points =
          ((groupRows rows g.game_date).map
            (fun r => r.sarah_points_scored)).sum ∧
        g.sarah_min_scoring_round ∈
          (groupRows rows g.game_date).map (fun r => r.sarah_points_scored) ∧
        (∀ y ∈ (groupRows rows g.game_date).map
            (fun r => r.sarah_points_scored),
          g.sarah_min_scoring_round ≤ y) ∧
        g.sarah_max_scoring_round ∈
          (groupRows rows g.game_date).map (fun r => r.sarah_points_scored) ∧
        (∀ y ∈ (groupRows rows g.game_date).map
            (fun r => r.sarah_points_scored),
          y ≤ g.sarah_max_scoring_round)) := by
  refine ⟨?_, ?_, ?_⟩
  · rw [gameLevelStats_map_date]; exact gameDates_nodup rows
  · intro d; rw [gameLevelStats_map_date]; exact mem_gameDates rows d
  · intro g hg
    rcases (mem_gameLevelStats rows g).mp hg with ⟨d, hd, rfl⟩
    have hne : groupRows rows d ≠ [] := groupRows_ne_nil rows d hd
    rw [mkGameRecord_date, mkGameRecord_trevor_total, mkGameRecord_trevor_min,
      mkGameRecord_trevor_max, mkGameRecord_sarah_total, mkGameRecord_sarah_min,
      mkGameRecord_sarah_max]
    have hTne : (groupRows rows d).map (fun r => r.trevor_points_scored) ≠ [] :=
      map_ne_nil _ _ hne
    have hSne : (groupRows rows d).map (fun r => r.sarah_points_scored) ≠ [] :=
      map_ne_nil _ _ hne
    exact ⟨⟨rfl, minList_mem _ hTne, minList_le _, maxList_mem _ hTne, le_maxList _⟩,
      ⟨rfl, minList_mem _ hSne, minList_le _, maxList_mem _ hSne, le_maxList _⟩⟩

/-- C7: the rows of the game-level output are in ascending order of
their `game_date` key. -/
theorem game_level_sorted (rows : List DerivedRound) :
    ((gameLevelStats rows).map (fun g => g.game_date)).Sorted (· ≤ ·) := by
  rw [gameLevelStats_map_date]
  exact gameDates_sorted rows

/-- C9: when every input row's scored points are nonnegative, each game
record satisfies `min_scoring_round ≤ max_scoring_round ≤ total_points`
for both players. -/
theorem game_stats_invariant (rows : List DerivedRound)
    (h : ∀ r ∈ rows, 0 ≤ r.trevor_points_scored ∧ 0 ≤ r.sarah_points_scored) :
    ∀ g ∈ gameLevelStats rows,
      (g.trevor_min_scoring_round ≤ g.trevor_max_scoring_round ∧
        g.trevor_max_scoring_round ≤ g.trevor_total_points) ∧
      (g.sarah_min_scoring_round ≤ g.sarah_max_scoring_round ∧
        g.sarah_max_scoring_round ≤ g.sarah_total_points) := by
  intro g hg
  rcases (mem_gameLevelStats rows g).mp hg with ⟨d, hd, rfl⟩
  have hne : groupRows rows d ≠ [] := groupRows_ne_nil rows d hd
  rw [mkGameRecord_trevor_total, mkGameRecord_trevor_min, mkGameRecord_trevor_max,
    mkGameRecord_sarah_total, mkGameRecord_sarah_min, mkGameRecord_sarah_max]
  have hTne : (groupRows rows d).map (fun r => r.trevor_points_scored) ≠ [] :=
    map_ne_nil _ _ hne
  have hSne : (groupRows rows d).map (fun r => r.sarah_points_scored) ≠ [] :=
    map_ne_nil _ _ hne
  have hTpos : ∀ x ∈ (groupRows rows d).map (fun r => r.trevor_points_scored),
      0 ≤ x := by
    intro x hx
    rcases List.mem_map.mp hx with ⟨r, hr, rfl⟩
    exact (h r ((mem_groupRows rows d r).mp hr).1).1
  have hSpos : ∀ x ∈ (groupRows rows d).map (fun r => r.sarah_points_scored),
      0 ≤ x := by
    intro x hx
    rcases List.mem_map.mp hx with ⟨r, hr, rfl⟩
    exact (h r ((mem_groupRows rows d r).mp hr).1).2
  refine ⟨⟨?_, ?_⟩, ⟨?_, ?_⟩⟩
  · exact minList_le _ _ (maxList_mem _ hTne)
  · exact List.single_le_sum hTpos _ (maxList_mem _ hTne)
  · exact minList_le _ _ (maxList_mem _ hSne)
  · exact List.single_le_sum hSpos _ (maxList_mem _ hSne)

/-- C9 witness: the invariant at the worked example's game record. -/
theorem game_stats_invariant_witness :
    (exampleGame.trevor_min_scoring_round ≤ exampleGame.trevor_max_scoring_round ∧
      exampleGame.trevor_max_scoring_round ≤ exampleGame.trevor_total_points) ∧
    (exampleGame.sarah_min_scoring_round ≤ exampleGame.sarah_max_scoring_round ∧
      exampleGame.sarah_max_scoring_round ≤ exampleGame.sarah_total_points) :=
  game_stats_invariant exampleDerived (by decide) exampleGame (by decide)

/-- C8: the worked example: two rounds on 2024-01-01 with Trevor scoring
5 of 8 potential and 3 of 3, Sarah scoring 6 and 10, yield derived
columns `point_overlap = [3, 0]`, `sarah_points_potential = [9, 10]`,
and one game-level row with Trevor total 8, min 3, max 5, Sarah total
16, min 6, max 10, and winner `"Sarah"`. -/
theorem example_pipeline :
    (addDerivedColumns exampleRounds).map (fun r => r.point_overlap) = [3, 0] ∧
    (addDerivedColumns exampleRounds).map
      (fun r => r.sarah_points_potential) = [9, 10] ∧
    gameLevelStats (addDerivedColumns exampleRounds) =
      [ { game_date := 20240101, trevor_total_points := 8,
          trevor_min_scoring_round := 3, trevor_max_scoring_round := 5,
          sarah_total_points := 16, sarah_min_scoring_round := 6,
          sarah_max_scoring_round := 10, winner := "Sarah" } ] :=
  ⟨rfl, rfl, rfl⟩
